import Mathlib

/-!
Shallow embedding of the result-aggregation / JUnit-XML-report core of
django-jenkins (files `django_jenkins/utils.py` and `django_jenkins/runner.py`),
together with theorems settling the specification claims about it.

Conventions of the embedding:
* Python strings are `String`, Python lists are `List`.
* Timestamps and elapsed times are exact rationals (`Rat`) or integers; the
  claims under study are about aggregation order and formatting policy, not
  binary floating point.
* An operation that can raise a Python exception is modelled as `Except String`
  (the payload names the exception) or, for `generate_reports`, as a result
  record carrying the files written before the abort.
* XML DOM nodes are modelled by the inductive `XmlNode`; a
  `createCDATASection` call becomes an `XmlNode.cdata` leaf holding the
  section's character data.
-/

/-- A unittest test object, as far as the embedded code inspects it:
`testcase.__module__` and `testcase._testMethodName`
(`runner.py`, `_get_info_by_testcase`). -/
structure TestCase where
  module : String
  testMethodName : String
deriving DecidableEq, Repr

/-- XML DOM node: an element with attributes and children, or a CDATA section
holding literal character data. -/
inductive XmlNode where
  | element (name : String) (attrs : List (String × String)) (children : List XmlNode)
  | cdata (text : String)

/-- The child list of a node (`[]` for a CDATA leaf). -/
def XmlNode.children : XmlNode → List XmlNode
  | .element _ _ cs => cs
  | .cdata _ => []

/-- The attribute names of a node, in the order they were set. -/
def XmlNode.attrNames : XmlNode → List String
  | .element _ attrs _ => attrs.map Prod.fst
  | .cdata _ => []

/-- Look up an attribute value by name (first match). -/
def XmlNode.attr : XmlNode → String → Option String
  | .element _ attrs _, k => (attrs.find? (fun p => p.1 == k)).map Prod.snd
  | .cdata _, _ => none

/-- Python's `s.split(']]>')` on the character list: leftmost-first,
non-overlapping occurrences of the three-character separator delimit the
fragments; `n` occurrences yield `n + 1` fragments (empty fragments
included).  Written as structural recursion so that the kernel can evaluate
it. -/
def splitCdataEnd : List Char → List (List Char)
  | ']' :: ']' :: '>' :: rest => [] :: splitCdataEnd rest
  | c :: cs =>
    match splitCdataEnd cs with
    | [] => [[c]]
    | f :: fs => (c :: f) :: fs
  | [] => [[]]

/-- `content.split(']]>')` at the `String` level. -/
def pySplitCdata (content : String) : List String :=
  (splitCdataEnd content.data).map (fun l => ⟨l⟩)

/-- `utils.add_cdata(xml_document, content, append_to)`: splits `content` on
the CDATA terminator `"]]>"` and emits a CDATA section per fragment, with the
terminator broken as `"]]" / ">"` across two sections at each split point.
The embedding returns the list of character-data payloads of the
`createCDATASection` calls, in order.  Mirrors the source exactly, including
the `if not entry: continue` placed before the terminator re-emission. -/
def add_cdata (content : String) : List String :=
  let parts := pySplitCdata content
  let n := parts.length
  (parts.enum.map (fun p =>
    let index := p.1
    let entry := p.2
    if entry = "" then []
    else if index < n - 1 then [entry ++ "]]", ">"]
    else [entry])).flatten

/-- `'%.3f'`-style formatting of an exact rational: round to the nearest
thousandth and print with exactly three digits after the decimal point. -/
def fmt3 (q : Rat) : String :=
  let n : Int := round (q * 1000)
  let sign := if n < 0 then "-" else ""
  let m := n.natAbs
  let frac := m % 1000
  let fracStr :=
    if frac < 10 then "00" ++ toString frac
    else if frac < 100 then "0" ++ toString frac
    else toString frac
  sign ++ toString (m / 1000) ++ "." ++ fracStr

/-- The record type `utils.report_testcase` expects for its `test_result`
argument, with each duck-typed access path flattened to one field:
`test_result[0].test_method.id` → `test_method_id`;
`test_result.outcome` → `outcome` (0 success, 1 failure, 2 error);
`test_result.err[0].__name__` → `err_type_name`;
`str(test_result.err[1])` → `err_message`;
`test_result.get_elapsed_time()` → `elapsed`;
`test_result.get_error_info()` → `error_info`. -/
structure TRecord where
  test_method_id : String
  outcome : Nat
  err_type_name : String
  err_message : String
  elapsed : Rat
  error_info : String

/-- `utils.report_testcase`: builds a `<testcase>` element; for a non-zero
outcome appends one `('failure', 'error')[outcome - 1]` child carrying the
error type/message attributes and the CDATA-escaped error info. -/
def report_testcase (suite_name : String) (test_result : TRecord) : XmlNode :=
  let children : List XmlNode :=
    if test_result.outcome ≠ 0 then
      let elem_name := ["failure", "error"].getD (test_result.outcome - 1) ""
      [XmlNode.element elem_name
        [("type", test_result.err_type_name), ("message", test_result.err_message)]
        ((add_cdata test_result.error_info).map XmlNode.cdata)]
    else []
  XmlNode.element "testcase"
    [("classname", suite_name),
     ("name", test_result.test_method_id),
     ("time", fmt3 test_result.elapsed)]
    children

/-- A `test_info` tuple stored by the collector: the test object plus the
second tuple component (`'OK'` for successes, the stringified error
otherwise). -/
abbrev Info := TestCase × String

/-- `utils.report_testsuite`: builds the `<testsuite>` element with attributes
`name`, `tests` (record count) and `time` (`'%.3f' % sum(...)`, the exact sum
of the per-test timings formatted once).  The `failures`/`errors`
attribute-setting code in the source is inside a string literal and therefore
dead; no such attribute is set.  Children are appended later by
`report_testcase` calls, so the element is created with none. -/
def report_testsuite (suite_name : String) (tests : List Info)
    (timing : TestCase → Rat) : XmlNode :=
  XmlNode.element "testsuite"
    [("name", suite_name),
     ("tests", toString tests.length),
     ("time", fmt3 ((tests.map (fun test => timing test.1)).sum))]
    []

/-- The timing-relevant state of `XMLTestResult`.  `start_test_time` is a
single instance attribute shared by all tests (`self.start_test_time`); it is
`none` while the attribute has never been assigned (reading it then raises
`AttributeError`).  `timing` is the `self.timing` dict. -/
structure CollectorTimes where
  start_test_time : Option Int
  timing : TestCase → Option Int

/-- `XMLTestResult.startTest`: stores the current clock reading in the shared
`start_test_time` attribute, regardless of which test is starting. -/
def startTest (now : Int) (_test : TestCase) (s : CollectorTimes) : CollectorTimes :=
  { s with start_test_time := some now }

/-- `XMLTestResult.stopTest`: reads the shared `start_test_time` attribute
(`AttributeError` if it was never assigned, i.e. `startTest` was never called
on this collector) and stores `now - start_test_time` in `timing[test]`. -/
def stopTest (now : Int) (test : TestCase) (s : CollectorTimes) :
    Except String CollectorTimes :=
  match s.start_test_time with
  | none => .error "AttributeError: start_test_time"
  | some t0 =>
    .ok { s with
          timing := fun t => if t = test then some (now - t0) else s.timing t }

/-- `unittest.TestResult.addFailure(self, test, err)` (standard library,
the superclass): a two-parameter method that appends `(test, err)` to the
failure list.  Modelled over an explicit Python-style argument list so that
calling it with the wrong number of arguments is expressible: any argument
list that is not exactly `[test, err]` raises `TypeError`. -/
def TestResult_addFailure (failures : List (TestCase × String))
    (args : List (TestCase ⊕ String)) :
    Except String (List (TestCase × String)) :=
  match args with
  | [.inl test, .inr err] => .ok (failures ++ [(test, err)])
  | _ => .error "TypeError"

/-- `unittest.TestResult.addError(self, test, err)` (standard library):
same shape as `TestResult_addFailure`, for the error list. -/
def TestResult_addError (errors : List (TestCase × String))
    (args : List (TestCase ⊕ String)) :
    Except String (List (TestCase × String)) :=
  match args with
  | [.inl test, .inr err] => .ok (errors ++ [(test, err)])
  | _ => .error "TypeError"

/-- `XMLTestResult.addFailure(self, test, err)`: after sending the signal it
delegates with `super(XMLTestResult, self).addFailure(test)` — the `err`
argument is not passed on. -/
def XMLTestResult_addFailure (failures : List (TestCase × String))
    (test : TestCase) (_err : String) :
    Except String (List (TestCase × String)) :=
  TestResult_addFailure failures [.inl test]

/-- `XMLTestResult.addError(self, test, err)`: delegates with
`super(XMLTestResult, self).addError(test)` — the `err` argument is not
passed on. -/
def XMLTestResult_addError (errors : List (TestCase × String))
    (test : TestCase) (_err : String) :
    Except String (List (TestCase × String)) :=
  TestResult_addError errors [.inl test]

/-- The grouping key computed inside `_get_info_by_testcase`:
`module = testcase.__module__ + '.'`, replaced by `''` when it equals
`'__main__.'`, then `module + testcase._testMethodName`. -/
def testcaseName (testcase : TestCase) : String :=
  let module := testcase.module ++ "."
  let module := if module = "__main__." then "" else module
  module ++ testcase.testMethodName

/-- Append `info` to the group keyed `k` of an insertion-ordered association
list, creating the group at the end when the key is new.  This is the
`tests_by_testcase.setdefault`/append step of `_get_info_by_testcase`
(modulo Python-2 dict key order, which is irrelevant to the mapping). -/
def dictAppend (d : List (String × List Info)) (k : String) (info : Info) :
    List (String × List Info) :=
  match d with
  | [] => [(k, [info])]
  | (k', g) :: rest =>
    if k' = k then (k', g ++ [info]) :: rest
    else (k', g) :: dictAppend rest k info

/-- Group lookup (`tests_by_testcase[k]`), `[]` when the key is absent. -/
def dictLookup (d : List (String × List Info)) (k : String) : List Info :=
  match d with
  | [] => []
  | (k', g) :: rest => if k' = k then g else dictLookup rest k

/-- Total number of records held across all groups. -/
def dictSize (d : List (String × List Info)) : Nat :=
  (d.map (fun g => g.2.length)).sum

/-- `XMLTestResult._get_info_by_testcase`: iterates
`(self.successes, self.failures, self.errors)` in that order and files each
`test_info` under `testcaseName test_info[0]`. -/
def get_info_by_testcase (successes failures errors : List Info) :
    List (String × List Info) :=
  (successes ++ failures ++ errors).foldl
    (fun d test_info => dictAppend d (testcaseName test_info.1) test_info) []

/-- Outcome of one executed test, for describing a run feeding the collector. -/
inductive Outcome where
  | success
  | failure (err : String)
  | error (err : String)
deriving DecidableEq, Repr

/-- A run: the executed tests with their outcomes, in execution order. -/
abbrev Run := List (TestCase × Outcome)

def Outcome.isSuccess : Outcome → Bool
  | .success => true
  | _ => false

def Outcome.isFailure : Outcome → Bool
  | .failure _ => true
  | _ => false

def Outcome.isErr : Outcome → Bool
  | .error _ => true
  | _ => false

/-- The `test_info` tuple a run entry contributes: `(test, 'OK')` on success
(`addSuccess`), `(test, err)` otherwise. -/
def infoOf (p : TestCase × Outcome) : Info :=
  match p.2 with
  | .success => (p.1, "OK")
  | .failure e => (p.1, e)
  | .error e => (p.1, e)

/-- `self.successes` after the run: success entries in execution order. -/
def successesOf (run : Run) : List Info :=
  (run.filter (fun p => p.2.isSuccess)).map infoOf

/-- `self.failures` after the run (as the superclass would accumulate them):
failure entries in execution order. -/
def failuresOf (run : Run) : List Info :=
  (run.filter (fun p => p.2.isFailure)).map infoOf

/-- `self.errors` after the run (as the superclass would accumulate them):
error entries in execution order. -/
def errorsOf (run : Run) : List Info :=
  (run.filter (fun p => p.2.isErr)).map infoOf

/-- The report file name for a suite: `'TEST-%s.xml' % suite`. -/
def reportFileName (suite : String) : String :=
  "TEST-" ++ suite ++ ".xml"

/-- Modelled from the spec: `utils.report_output` is called by
`generate_reports` but is not defined in the provided source files
(`utils.py` defines only `add_cdata`, `report_testcase` and
`report_testsuite`).  The spec's per-suite generation steps (§4.2) list no
additional output step and no failure mode for it, so it is modelled as a
step with no effect on the observable report state. -/
def report_output : Unit := ()

/-- Outcome of one `generate_reports` call on the filesystem: the report files
written (in order) and the exception that aborted the call, if any.  A raised
exception propagates out of `generate_reports`, so everything after the raise
point is not performed, while files already written stay on disk. -/
structure FsResult where
  written : List String
  error : Option String
deriving DecidableEq, Repr

/-- The per-suite loop of `generate_reports`: each iteration builds the suite
document and writes `TEST-<suite>.xml`.  `writeOk suite = false` models the
body raising for that suite (e.g. `file(...)` failing to open or write); the
loop has no exception handling, so a raise aborts the remaining iterations. -/
def reportLoop (writeOk : String → Bool) (written : List String) :
    List String → FsResult
  | [] => ⟨written, none⟩
  | suite :: rest =>
    if writeOk suite then
      reportLoop writeOk (written ++ [reportFileName suite]) rest
    else ⟨written, some ("IOError: " ++ reportFileName suite)⟩

/-- `XMLTestResult.generate_reports`: first
`if not os.path.exists(output_dir): os.makedirs(output_dir)` — so `makedirs`
runs (and can raise, aborting before any file is written) only when the
output path does not exist — then the per-suite write loop.  `dirExists`
models `os.path.exists(output_dir)`; `mkdirsOk` models whether
`os.makedirs` succeeds when called. -/
def generate_reports (dirExists mkdirsOk : Bool) (writeOk : String → Bool)
    (suites : List String) : FsResult :=
  if dirExists = false ∧ mkdirsOk = false then ⟨[], some "OSError: makedirs"⟩
  else reportLoop writeOk [] suites

/-- C1: the CDATA round-trip fails on the code.  For the input `"]]>x"` —
a diagnostic string whose CDATA terminator occurrence is at the start —
`add_cdata` emits a single section `"x"`: the `if not entry: continue`
branch skips the empty leading fragment together with the `"]]"`/`">"`
sections that would re-emit the terminator, so concatenating the emitted
sections yields `"x"`, not the original string. -/
theorem add_cdata_loses_leading_terminator :
    add_cdata "]]>x" = ["x"] ∧ String.join (add_cdata "]]>x") ≠ "]]>x" := by
  refine ⟨by rfl, by decide⟩

/-- C5: outcome-to-element mapping of `report_testcase`.  Outcome 0
(success) yields a `<testcase>` with no child; outcome 1 (failure) yields
exactly one `<failure>` child with the outcome's type and message attributes
and the CDATA-escaped details as body; outcome 2 (error) yields one
`<error>` child analogously. -/
theorem report_testcase_outcome_children
    (s n a b d : String) (q : Rat) :
    (report_testcase s ⟨n, 0, a, b, q, d⟩).children = [] ∧
    (report_testcase s ⟨n, 1, a, b, q, d⟩).children =
      [XmlNode.element "failure" [("type", a), ("message", b)]
        ((add_cdata d).map XmlNode.cdata)] ∧
    (report_testcase s ⟨n, 2, a, b, q, d⟩).children =
      [XmlNode.element "error" [("type", a), ("message", b)]
        ((add_cdata d).map XmlNode.cdata)] := by
  refine ⟨rfl, rfl, rfl⟩

/-- C6: the `time` attribute written by `report_testsuite` is the exact
rational sum of the group's elapsed times formatted once to three decimals
(sum-then-round), and the `tests` attribute is the number of records in the
group. -/
theorem report_testsuite_time_sum_then_round
    (suite_name : String) (tests : List Info) (timing : TestCase → Rat) :
    (report_testsuite suite_name tests timing).attr "time" =
      some (fmt3 ((tests.map (fun test => timing test.1)).sum)) ∧
    (report_testsuite suite_name tests timing).attr "tests" =
      some (toString tests.length) := by
  refine ⟨rfl, rfl⟩

/-- C9: the `<testsuite>` element carries exactly the attributes `name`,
`tests` and `time`, in that order; in particular no `failures` or `errors`
count attribute is ever set (that code is dead, inside a string literal). -/
theorem report_testsuite_attr_names
    (suite_name : String) (tests : List Info) (timing : TestCase → Rat) :
    (report_testsuite suite_name tests timing).attrNames =
      ["name", "tests", "time"] := rfl

/-- C10: `XMLTestResult.addFailure` and `XMLTestResult.addError` delegate to
the superclass passing only `test`, omitting the required `err` argument, so
the parent invocation raises `TypeError` and never appends `(test, err)` to
the parent's failure/error list. -/
theorem addFailure_addError_arity_mismatch
    (failures errors : List (TestCase × String)) (test : TestCase) (err : String) :
    XMLTestResult_addFailure failures test err = .error "TypeError" ∧
    XMLTestResult_addError errors test err = .error "TypeError" := ⟨rfl, rfl⟩

/-- Appending `"."` to a string is injective. -/
theorem append_dot_inj {a b : String} (h : a ++ "." = b ++ ".") : a = b := by
  have hd := congrArg String.data h
  simp only [String.data_append] at hd
  have hd2 : a.data ++ ['.'] = b.data ++ ['.'] := hd
  exact String.ext (List.append_cancel_right hd2)

/-- C7: the grouping key of `_get_info_by_testcase` is the module path
followed by the method name, and for the entry module `'__main__'` the
module prefix is omitted so the method name is used alone. -/
theorem testcaseName_module_prefix
    (m meth : String) (h : m ≠ "__main__") :
    testcaseName ⟨"__main__", meth⟩ = meth ∧
    testcaseName ⟨m, meth⟩ = m ++ "." ++ meth := by
  constructor
  · rfl
  · unfold testcaseName
    have hne : ¬ (m ++ "." = "__main__.") := fun hc => h (append_dot_inj hc)
    simp only [hne, if_false, ite_false]

/-- Witness for C7 at the concrete modules `"__main__"` and `"pkg"`. -/
theorem testcaseName_module_prefix_witness :
    testcaseName ⟨"__main__", "test_x"⟩ = "test_x" ∧
    testcaseName ⟨"pkg", "test_x"⟩ = "pkg" ++ "." ++ "test_x" :=
  testcaseName_module_prefix "pkg" "test_x" (by decide)

/-- The per-suite loop with a prefix of suites whose writes succeed, then a
suite whose write raises: the prefix files are written, the raise is
propagated, and no suite after the raising one is processed. -/
theorem reportLoop_abort (writeOk : String → Bool) (s : String)
    (hs : writeOk s = false) :
    ∀ (pre : List String), (∀ p ∈ pre, writeOk p = true) →
    ∀ (written post : List String),
      reportLoop writeOk written (pre ++ s :: post) =
        ⟨written ++ pre.map reportFileName,
         some ("IOError: " ++ reportFileName s)⟩ := by
  intro pre
  induction pre with
  | nil =>
    intro _ written post
    simp [reportLoop, hs]
  | cons p rest ih =>
    intro hpre written post
    have hp : writeOk p = true := hpre p (by simp)
    have hrest : ∀ q ∈ rest, writeOk q = true := fun q hq => hpre q (by simp [hq])
    simp only [List.cons_append, reportLoop, hp, if_true, ite_true, List.append_eq]
    rw [ih hrest]
    simp [List.append_assoc]

/-- C2 counterexample: two suites `"a"` and `"b"` where writing `"a"`'s
report raises and `"b"`'s write would succeed.  `generate_reports` aborts at
`"a"` and `"b"`'s report file is never created, contradicting per-suite
isolation. -/
theorem generate_reports_not_isolated_cex :
    generate_reports true true (fun s => s != "a") ["a", "b"] =
      ⟨[], some "IOError: TEST-a.xml"⟩ ∧
    reportFileName "b" ∉
      (generate_reports true true (fun s => s != "a") ["a", "b"]).written := by
  refine ⟨by rfl, by decide⟩

/-- C2 (amended): the per-suite loop of `generate_reports` has no exception
handling, so the first suite whose report write raises aborts the whole
call: suites iterated before it keep their report files, suites after it get
none. -/
theorem generate_reports_abort_on_write_failure
    (writeOk : String → Bool) (pre post : List String) (s : String)
    (hpre : ∀ p ∈ pre, writeOk p = true) (hs : writeOk s = false) :
    generate_reports true true writeOk (pre ++ s :: post) =
      ⟨pre.map reportFileName, some ("IOError: " ++ reportFileName s)⟩ := by
  unfold generate_reports
  simp only [Bool.true_eq_false, false_and, if_false, ite_false]
  simpa using reportLoop_abort writeOk s hs pre hpre [] post

/-- Witness for C2's amended theorem: suites `["p", "a", "b"]` with `"a"`
raising — `"p"`'s file is written, `"b"`'s is not. -/
theorem generate_reports_abort_on_write_failure_witness :
    generate_reports true true (fun s => s != "a") ["p", "a", "b"] =
      ⟨["p"].map reportFileName, some ("IOError: " ++ reportFileName "a")⟩ :=
  generate_reports_abort_on_write_failure (fun s => s != "a") ["p"] ["b"] "a"
    (by decide) (by decide)

/-- C8: when the output directory does not exist and `os.makedirs` raises,
`generate_reports` propagates the exception before the suite loop starts:
the call fails and no suite report file is created. -/
theorem generate_reports_mkdirs_failure_no_files
    (writeOk : String → Bool) (suites : List String) :
    generate_reports false false writeOk suites =
      ⟨[], some "OSError: makedirs"⟩ := rfl

/-- C4 counterexample: `startTest` for identity `t1` at time 10, then
`stopTest` for the never-started identity `t2` at time 17 — the call
succeeds and records 7 seconds for `t2`, an elapsed time computed from
`t1`'s start timestamp, instead of failing. -/
theorem stopTest_garbage_timing_cex :
    stopTest 17 ⟨"m", "t2"⟩
        (startTest 10 ⟨"m", "t1"⟩ ⟨none, fun _ => none⟩) =
      .ok ⟨some 10,
           fun t => if t = ⟨"m", "t2"⟩ then some 7 else none⟩ := rfl

/-- C4 (amended): `stopTest` fails (reading the unset `start_test_time`
attribute raises `AttributeError`) only when `startTest` has never been
called on the collector at all; when the most recent `startTest` was for any
identity `t1`, `stopTest` for an identity `t2` succeeds and silently stores
`now - startT`, an elapsed time based on the shared (last) start timestamp
rather than one belonging to `t2`. -/
theorem stopTest_shared_start_time
    (now startT : Int) (t1 t2 : TestCase) (s : CollectorTimes)
    (f : TestCase → Option Int) :
    stopTest now t2 ⟨none, f⟩ = .error "AttributeError: start_test_time" ∧
    stopTest now t2 (startTest startT t1 s) =
      .ok ⟨some startT,
           fun t => if t = t2 then some (now - startT) else s.timing t⟩ :=
  ⟨rfl, rfl⟩

/-- `dictAppend` grows the total record count by one. -/
theorem dictSize_dictAppend (d : List (String × List Info)) (k : String) (i : Info) :
    dictSize (dictAppend d k i) = dictSize d + 1 := by
  induction d with
  | nil => rfl
  | cons hd rest ih =>
    obtain ⟨k0, g⟩ := hd
    by_cases h : k0 = k <;>
      simp [dictAppend, dictSize, h, List.map_cons, List.sum_cons] at * <;> omega

/-- Folding records into the dict grows the total count by the number of
records folded in. -/
theorem dictSize_foldl (l : List Info) :
    ∀ d, dictSize (l.foldl
        (fun d test_info => dictAppend d (testcaseName test_info.1) test_info) d) =
      dictSize d + l.length := by
  induction l with
  | nil => intro d; simp
  | cons i rest ih =>
    intro d
    simp only [List.foldl_cons]
    rw [ih, dictSize_dictAppend]
    simp only [List.length_cons]
    omega

/-- `dictAppend` at key `k` appends to `k`'s group and leaves every other
group unchanged. -/
theorem dictLookup_dictAppend (d : List (String × List Info)) (k k' : String)
    (i : Info) :
    dictLookup (dictAppend d k i) k' =
      if k = k' then dictLookup d k' ++ [i] else dictLookup d k' := by
  induction d with
  | nil => by_cases h : k = k' <;> simp [dictAppend, dictLookup, h]
  | cons hd rest ih =>
    obtain ⟨k0, g⟩ := hd
    by_cases h0 : k0 = k
    · subst h0
      by_cases h1 : k0 = k' <;> simp [dictAppend, dictLookup, h1]
    · by_cases h1 : k0 = k'
      · subst h1
        have : ¬ (k = k0) := fun hc => h0 hc.symm
        simp [dictAppend, dictLookup, h0, this]
      · simp [dictAppend, dictLookup, h0, h1, ih]

/-- Folding records into the dict: each group ends up extended, in order, by
exactly the folded records whose key matches. -/
theorem dictLookup_foldl (l : List Info) :
    ∀ d k, dictLookup (l.foldl
        (fun d test_info => dictAppend d (testcaseName test_info.1) test_info) d) k =
      dictLookup d k ++ l.filter (fun i => testcaseName i.1 == k) := by
  induction l with
  | nil => intro d k; simp
  | cons i rest ih =>
    intro d k
    simp only [List.foldl_cons]
    rw [ih, dictLookup_dictAppend]
    by_cases h : testcaseName i.1 = k <;>
      simp [List.filter_cons, h, List.append_assoc]

/-- The three outcome-filtered lists partition the run by length. -/
theorem run_partition_length (run : Run) :
    (successesOf run).length + (failuresOf run).length + (errorsOf run).length =
      run.length := by
  induction run with
  | nil => rfl
  | cons p rest ih =>
    obtain ⟨t, o⟩ := p
    cases o <;>
      simp [successesOf, failuresOf, errorsOf, Outcome.isSuccess,
        Outcome.isFailure, Outcome.isErr, List.filter_cons] at * <;> omega

/-- C3 (amended): for every run, the grouped view holds exactly `N` records
in total (`N` the number of executed tests, none lost or duplicated), and
each group consists exactly of the records whose key matches, in the
collector's traversal order — all successes in execution order, then all
failures, then all errors — rather than in overall execution order. -/
theorem get_info_by_testcase_partition (run : Run) :
    dictSize (get_info_by_testcase (successesOf run) (failuresOf run)
        (errorsOf run)) = run.length ∧
    ∀ k, dictLookup (get_info_by_testcase (successesOf run) (failuresOf run)
        (errorsOf run)) k =
      (successesOf run ++ failuresOf run ++ errorsOf run).filter
        (fun i => testcaseName i.1 == k) := by
  constructor
  · unfold get_info_by_testcase
    rw [dictSize_foldl]
    simp only [dictSize, List.map_nil, List.sum_nil, Nat.zero_add,
      List.length_append]
    have := run_partition_length run
    omega
  · intro k
    unfold get_info_by_testcase
    rw [dictLookup_foldl]
    simp [dictLookup]

/-- C3 counterexample: a run of one test identity executed twice, first as a
failure then as a success.  Its single group lists the success record before
the failure record, while the original execution order is failure first —
the grouped view does not preserve execution order within a group. -/
theorem get_info_by_testcase_order_cex :
    dictLookup (get_info_by_testcase
        (successesOf [(⟨"m", "x"⟩, .failure "E"), (⟨"m", "x"⟩, .success)])
        (failuresOf [(⟨"m", "x"⟩, .failure "E"), (⟨"m", "x"⟩, .success)])
        (errorsOf [(⟨"m", "x"⟩, .failure "E"), (⟨"m", "x"⟩, .success)]))
        "m.x" ≠
      [(⟨"m", "x"⟩, Outcome.failure "E"), (⟨"m", "x"⟩, Outcome.success)].map
        infoOf := by
  decide
